import Mathlib

/-
Shallow embedding of the consensus and ledger engine of the repository
(src/blockchain.py, src/wallet.py, src/node.py).

The persistent store is modelled as a value of type DB (the rows of the block
and transaction tables).  The in-memory caches of the Blockchain class are
reloaded from the store after every write (load_data), so in this sequential
model an operation reads the store directly.  External collaborators that are
not part of the repository source under src (the SHA256 based block hash, the
merkle commitment of transaction.py, the difficulty condition of
utility/verification.py, and the RSA primitives of pycryptodome) are kept as
explicit function parameters.
-/

/-- A persisted transaction row: sender, recipient, signature, amount, the
mined flag (0 or 1 in the store) and the index of the block that mined it. -/
structure Transaction where
  sender : String
  recipient : String
  signature : String
  amount : Int
  mined : Bool
  block : Option Nat
  time : Int
deriving DecidableEq

/-- A persisted block row, mirroring Block(index, previous_hash, hash_of_txs,
proof, timestamp). -/
structure Block where
  index : Nat
  previous_hash : String
  hash_of_txs : String
  proof : Nat
  timestamp : Int
deriving DecidableEq

instance : Inhabited Block := ⟨⟨0, "GENESIS", "GENESIS", 100, -1⟩⟩

instance : Inhabited Transaction := ⟨⟨"", "", "", 0, false, none, 0⟩⟩

/-- The durable store: the block table and the transaction table. -/
structure DB where
  blocks : List Block
  txs : List Transaction
deriving DecidableEq

/-- The reward we give to miners (for creating a new block). -/
def MINING_REWARD : Int := 10

/-- The open transaction pool: the rows with mined == 0. -/
def openTxs (db : DB) : List Transaction :=
  db.txs.filter fun t => !t.mined

/-- The tip of the chain, chain[-1].  load_data creates the genesis block on an
empty store, so the chain is never empty when the operations below run. -/
def lastBlock (db : DB) : Block :=
  db.blocks.getLastD default

/-- Modelled from the spec: Verification.valid_proof lives in
utility/verification.py, which is not under src.  Per the spec (section 4.2)
the predicate applies a fixed difficulty condition to a cryptographic hash of
the concatenation of the merkle root, the previous hash and the proof.  The
hash function hashS, the difficulty condition, and the merkle commitment of the
transaction list (Transaction.to_merkle_tree of transaction.py, also not under
src) are kept as parameters. -/
def Verification.valid_proof (merkle : List Transaction → String)
    (hashS : String → String) (difficulty : String → Bool)
    (txs : List Transaction) (last_hash : String) (proof : Nat) : Bool :=
  difficulty (hashS (merkle txs ++ last_hash ++ toString proof))

/-- The unbounded linear search loop (proof = 0; while not P proof: proof += 1):
the smallest n with P n = true, given that one exists. -/
def least_such (P : Nat → Bool) (h : ∃ n, P n = true) : Nat :=
  Nat.find h

/-- Blockchain.proof_of_work: starts at proof = 0 and increments until
Verification.valid_proof accepts, evaluated over the open transactions and the
hash of the last block.  The hypothesis h is the well-formedness of the
difficulty predicate (the loop terminates). -/
def Blockchain.proof_of_work (merkle : List Transaction → String)
    (hashS : String → String) (difficulty : String → Bool)
    (txs : List Transaction) (last_hash : String)
    (h : ∃ n, Verification.valid_proof merkle hashS difficulty txs last_hash n = true) :
    Nat :=
  least_such (Verification.valid_proof merkle hashS difficulty txs last_hash) h

/-- The search contract in the words of the spec (section 4.2): the smallest
proof whose difficulty hash over (merkle_root, previous_hash, proof) passes.
This second definition is the comparison point for the refinement claims about
which merkle root the stored proof was searched against. -/
def pow_for_root (hashS : String → String) (difficulty : String → Bool)
    (root last_hash : String)
    (h : ∃ n : Nat, difficulty (hashS (root ++ last_hash ++ toString n)) = true) : Nat :=
  least_such (fun n => difficulty (hashS (root ++ last_hash ++ toString n))) h

/-- The balance computation of Blockchain.get_balance for a named participant:
the two store queries (all rows with this sender; the mined rows with this
recipient) return lists of one-column rows, and the two reduce calls fold them
with the guard on the row length, exactly as in the source. -/
def get_balance_calc (db : DB) (participant : String) : Int :=
  let tx_sender := (db.txs.filter fun t => t.sender == participant).map fun t => [t.amount]
  let amount_sent :=
    tx_sender.foldl (fun tx_sum tx_amt => if 0 < tx_amt.length then tx_sum + tx_amt.sum else tx_sum + 0) 0
  let tx_recipient :=
    (db.txs.filter fun t => t.recipient == participant && t.mined).map fun t => [t.amount]
  let amount_received :=
    tx_recipient.foldl (fun tx_sum tx_amt => if 0 < tx_amt.length then tx_sum + tx_amt.sum else tx_sum + 0) 0
  amount_received - amount_sent

/-- Blockchain.get_balance: with no sender argument the configured public key
is used, and None is returned when that key is not configured. -/
def Blockchain.get_balance (db : DB) (public_key : Option String)
    (sender : Option String) : Option Int :=
  match sender with
  | none =>
    match public_key with
    | none => none
    | some pk => some (get_balance_calc db pk)
  | some s => some (get_balance_calc db s)

/-- Blockchain.add_transaction.  The verifier vt stands for
Verification.verify_transaction (utility/verification.py, not under src),
which per the spec (section 4.3) checks the signature and the balance of the
sender.  peer_responses lists the HTTP status each reachable peer answered the
broadcast with (none for a connection error, which is skipped).  In the source
the row is added to the session before verification but only committed when
verification succeeds, so a failed verification leaves the store unchanged;
after a commit, a peer answering 400 or 500 makes the call return False. -/
def Blockchain.add_transaction (vt : Transaction → Bool)
    (peer_responses : List (Option Nat)) (db : DB)
    (recipient sender signature : String) (amount timeArg : Int)
    (is_receiving : Bool) : Bool × DB :=
  let transaction : Transaction := ⟨sender, recipient, signature, amount, false, none, timeArg⟩
  if vt transaction then
    let db2 : DB := ⟨db.blocks, db.txs ++ [transaction]⟩
    if !is_receiving && peer_responses.any (fun r => r == some 400 || r == some 500) then
      (false, db2)
    else (true, db2)
  else (false, db)

/-- The reward transaction constructed in Blockchain.mine_block:
Transaction('MINING', public_key, 'REWARD FOR MINING BLOCK i', MINING_REWARD,
1, block_index, time()). -/
def reward_transaction (public_key : String) (block_index : Nat) (now : Int) : Transaction :=
  ⟨"MINING", public_key, "REWARD FOR MINING BLOCK " ++ toString block_index,
   MINING_REWARD, true, some block_index, now⟩

/-- The marking loop of mine_block: every row the store currently holds with
mined == 0 gets mined = 1 and block = block_index. -/
def markMined (block_index : Nat) (txs : List Transaction) : List Transaction :=
  txs.map fun t => if t.mined then t else { t with mined := true, block := some block_index }

/-- Blockchain.mine_block.  wallet_verify stands for the boolean outcome of the
defensive Wallet.verify_transaction re-check on each pooled transaction.  The
parameter late holds the rows a concurrent admission commits to the store
between the pool snapshot (copied_transactions) and the query that marks open
rows mined: the marking query reads the store again, so it sees those rows as
well.  The proof of work runs over the open pool before the reward transaction
is appended, while the merkle root stored in the block covers the snapshot with
the reward appended last, exactly as in the source. -/
def Blockchain.mine_block (hash_block : Block → String)
    (merkle : List Transaction → String) (hashS : String → String)
    (difficulty : String → Bool) (wallet_verify : Transaction → Bool)
    (public_key : Option String) (now : Int) (late : List Transaction) (db : DB)
    (hpow : ∃ n, Verification.valid_proof merkle hashS difficulty (openTxs db)
        (hash_block (lastBlock db)) n = true) :
    Option Block × DB :=
  match public_key with
  | none => (none, db)
  | some key =>
    let hashed_block := hash_block (lastBlock db)
    let proof := Blockchain.proof_of_work merkle hashS difficulty (openTxs db) hashed_block hpow
    let block_index := db.blocks.length
    let reward := reward_transaction key block_index now
    let copied_transactions := openTxs db
    if copied_transactions.all wallet_verify then
      let hashed_transactions := merkle (copied_transactions ++ [reward])
      let block : Block := ⟨block_index, hashed_block, hashed_transactions, proof, now⟩
      (some block, ⟨db.blocks ++ [block], markMined block_index (db.txs ++ late ++ [reward])⟩)
    else (none, db)

/-- Blockchain.add_block: validate the proof of work over the transaction list
without its trailing reward entry and compare the local tip hash with the
previous_hash of the received block; reject on failure, otherwise persist the
block and the reward row and mark the open rows whose signature appears in the
list mined into this block (signatures are the unique transaction keys). -/
def Blockchain.add_block (hash_block : Block → String)
    (merkle : List Transaction → String) (hashS : String → String)
    (difficulty : String → Bool) (db : DB) (block : Block)
    (list_of_transactions : List Transaction) : Bool × DB :=
  let proof_is_valid := Verification.valid_proof merkle hashS difficulty
    list_of_transactions.dropLast block.previous_hash block.proof
  let hashes_match := hash_block (lastBlock db) == block.previous_hash
  if !proof_is_valid || !hashes_match then (false, db)
  else
    let converted_block : Block :=
      ⟨block.index, block.previous_hash, block.hash_of_txs, block.proof, block.timestamp⟩
    let rwd := list_of_transactions.getLastD default
    let reward_tx : Transaction :=
      ⟨rwd.sender, rwd.recipient, rwd.signature, rwd.amount, true, some block.index, rwd.time⟩
    let sigs := list_of_transactions.dropLast.map Transaction.signature
    let marked := (db.txs ++ [reward_tx]).map fun t =>
      if sigs.contains t.signature then { t with mined := true, block := some block.index } else t
    (true, ⟨db.blocks ++ [converted_block], marked⟩)

/-- Modelled from the spec: Verification.verify_chain lives in
utility/verification.py, which is not under src.  Per the spec (sections 3 and
4.7) every block after the first must carry the hash of its predecessor as
previous_hash and a proof satisfying the difficulty predicate over
(previous_hash, merkle_root, proof); vp is that predicate. -/
def Verification.verify_chain (hash_block : Block → String)
    (vp : String → String → Nat → Bool) : List Block → Bool
  | [] => true
  | [_] => true
  | a :: b :: rest =>
    (hash_block a == b.previous_hash) && vp b.previous_hash b.hash_of_txs b.proof &&
      Verification.verify_chain hash_block vp (b :: rest)

/-- One iteration of the peer loop of Blockchain.resolve: the fetched chain
becomes the running winner iff it is strictly longer than the current winner
and passes full chain validation. -/
def resolveStep (valid : List Block → Bool) (acc : List Block × Bool)
    (node_chain : List Block) : List Block × Bool :=
  if decide (acc.1.length < node_chain.length) && valid node_chain then (node_chain, true)
  else acc

/-- The peer scan of Blockchain.resolve, started from the local chain with the
replace flag down.  Unreachable peers are skipped, so peers holds only the
chains that were actually fetched. -/
def resolveScan (valid : List Block → Bool) (localChain : List Block)
    (peers : List (List Block)) : List Block × Bool :=
  peers.foldl (resolveStep valid) (localChain, false)

/-- Blockchain.resolve.  When the scan raised the replace flag the source
enters the replacement branch, whose first store call is
session.query(Blockchain): the Blockchain class is not a mapped entity, so
sqlalchemy raises UnmappedClassError there (and the next line passes a Python
list to session.delete, which would raise as well), so the replacement never
commits and the call never returns True.  Without the flag the local chain is
kept and False is returned. -/
def Blockchain.resolve (valid : List Block → Bool) (localChain : List Block)
    (peers : List (List Block)) : Except String (Bool × List Block) :=
  let scan := resolveScan valid localChain peers
  if scan.2 then Except.error "UnmappedClassError"
  else Except.ok (scan.2, localChain)

/-- The value of one hexadecimal digit, as binascii reads it. -/
def hexVal (c : Char) : Option Nat :=
  if '0' ≤ c ∧ c ≤ '9' then some (c.toNat - '0'.toNat)
  else if 'a' ≤ c ∧ c ≤ 'f' then some (c.toNat - 'a'.toNat + 10)
  else if 'A' ≤ c ∧ c ≤ 'F' then some (c.toNat - 'A'.toNat + 10)
  else none

/-- binascii.unhexlify on a character list: none models the binascii.Error
raised on an odd-length input or on a non-hexadecimal digit. -/
def unhexBytes : List Char → Option (List Nat)
  | [] => some []
  | [_] => none
  | a :: b :: rest =>
    match hexVal a, hexVal b, unhexBytes rest with
    | some hi, some lo, some tail => some ((16 * hi + lo) :: tail)
    | _, _, _ => none

/-- binascii.unhexlify. -/
def unhexlify (s : String) : Option (List Nat) :=
  unhexBytes s.data

/-- Wallet.verify_transaction from src/wallet.py.  binascii.unhexlify raises on
malformed hex input, and RSA.importKey raises ValueError on bytes that are
not importable as a key; neither is caught in the source, so the result is an Except
whose error constructor models the raised exception.  importKey and rsaVerify
are the external pycryptodome primitives; the verified payload is
str(sender) + str(recipient) + str(amount) + str(time), after the mined and
block columns are dropped. -/
def Wallet.verify_transaction (importKey : List Nat → Option (List Nat))
    (rsaVerify : List Nat → String → List Nat → Bool)
    (transaction : Transaction) : Except String Bool :=
  match unhexlify transaction.sender with
  | none => Except.error "binascii.Error"
  | some senderKeyBytes =>
    match importKey senderKeyBytes with
    | none => Except.error "ValueError"
    | some public_key =>
      let h := transaction.sender ++ transaction.recipient
        ++ toString transaction.amount ++ toString transaction.time
      match unhexlify transaction.signature with
      | none => Except.error "binascii.Error"
      | some sigBytes => Except.ok (rsaVerify public_key h sigBytes)

/-- The genesis block Block(0, 'GENESIS', 'GENESIS', 100, -1). -/
def exGenesis : Block := ⟨0, "GENESIS", "GENESIS", 100, -1⟩

/-- A concrete open transaction used by the concrete instances below. -/
def exTx1 : Transaction := ⟨"A", "B", "s1", 5, false, none, 0⟩

/-- A concrete store: the genesis block and one open transaction. -/
def exDb : DB := ⟨[exGenesis], [exTx1]⟩

/-- A concrete block hash collaborator. -/
def exHB : Block → String := fun _ => ""

/-- A concrete merkle commitment collaborator (the length of the list, so that
appending the reward changes the root). -/
def exMerkleLen : List Transaction → String := fun txs => toString txs.length

/-- A concrete difficulty condition under which the search over the root of the
snapshot and the search over the root of snapshot plus reward return different
proofs. -/
def exDiff : String → Bool := fun s => s == "10" || s == "21"

/-- The always-true difficulty condition (the search returns 0). -/
def exDiffTrue : String → Bool := fun _ => true

/-- The block mine_block produces from exDb under exHB, exMerkleLen and exDiff. -/
def exC4Block : Block := ⟨1, "", "2", 0, 0⟩

/-- A transaction committed by a concurrent admission after the mining snapshot
was taken. -/
def exLate : Transaction := ⟨"C", "D", "s2", 3, false, none, 5⟩

/-- A concrete block hash collaborator for the chain validation instances. -/
def exHB2 : Block → String := fun b => if b.index == 0 then "H0" else "H1"

/-- A concrete successor block linked to exGenesis under exHB2. -/
def exB1 : Block := ⟨1, "H0", "r", 7, 0⟩

/-- Specification of the search loop: the returned value satisfies the
predicate. -/
theorem least_such_spec (P : Nat → Bool) (h : ∃ n, P n = true) :
    P (least_such P h) = true :=
  Nat.find_spec h

/-- Specification of the search loop: every earlier candidate was rejected. -/
theorem least_such_min (P : Nat → Bool) (h : ∃ n, P n = true) {k : Nat}
    (hk : k < least_such P h) : P k = false :=
  Bool.eq_false_iff.mpr (Nat.find_min h hk)

/-- Evaluation rule for the search loop at a concrete least witness. -/
theorem least_such_eq (P : Nat → Bool) (h : ∃ n, P n = true) (m : Nat)
    (hm : P m = true) (hmin : ∀ k, k < m → P k = false) : least_such P h = m := by
  refine (Nat.find_eq_iff h).mpr ⟨hm, fun n hn => ?_⟩
  simp [hmin n hn]

/-- The reduce over one-column rows of get_balance equals a plain sum. -/
theorem rows_foldl (l : List Transaction) (init : Int) :
    (l.map fun t => [t.amount]).foldl
      (fun tx_sum tx_amt => if 0 < tx_amt.length then tx_sum + tx_amt.sum else tx_sum + 0) init
      = init + (l.map Transaction.amount).sum := by
  induction l generalizing init with
  | nil => simp
  | cons t ts ih =>
    simp only [List.map_cons, List.foldl_cons]
    rw [ih]
    simp only [List.length_cons, List.sum_cons, List.sum_nil, List.length_nil, List.map_cons]
    norm_num
    omega

/-- C1: for every participant p, get_balance(p) equals the sum of amounts of
persisted transactions with recipient p and mined true, minus the sum of
amounts of all persisted transactions (mined or open) with sender p. -/
theorem C1_get_balance_spec (db : DB) (p : String) :
    get_balance_calc db p =
      ((db.txs.filter fun t => t.recipient == p && t.mined).map Transaction.amount).sum
        - ((db.txs.filter fun t => t.sender == p).map Transaction.amount).sum := by
  simp only [get_balance_calc]
  rw [rows_foldl, rows_foldl]
  omega

/-- C10: get_balance with an explicit sender argument returns that participant
balance even when no local key is configured, and returns none exactly when no
sender argument is given and the public key is none. -/
theorem C10_get_balance_none (db : DB) (pk : Option String) (s : String) :
    Blockchain.get_balance db pk (some s) = some (get_balance_calc db s)
      ∧ (∀ q : Option String, Blockchain.get_balance db q none = none ↔ q = none) := by
  constructor
  · rfl
  · intro q
    cases q <;> simp [Blockchain.get_balance]

/-- C2: for every well-formed difficulty predicate and inputs, proof_of_work
returns the smallest non-negative proof accepted by Verification.valid_proof
over the same inputs; in particular the returned proof satisfies the predicate
that verification evaluates. -/
theorem C2_proof_of_work_least (merkle : List Transaction → String)
    (hashS : String → String) (difficulty : String → Bool)
    (txs : List Transaction) (last_hash : String)
    (h : ∃ n, Verification.valid_proof merkle hashS difficulty txs last_hash n = true) :
    Verification.valid_proof merkle hashS difficulty txs last_hash
        (Blockchain.proof_of_work merkle hashS difficulty txs last_hash h) = true
      ∧ ∀ k, k < Blockchain.proof_of_work merkle hashS difficulty txs last_hash h →
          Verification.valid_proof merkle hashS difficulty txs last_hash k = false := by
  exact ⟨least_such_spec _ h, fun k hk => least_such_min _ h hk⟩

/-- C2 witness: the theorem applied at a concrete difficulty predicate. -/
theorem C2_proof_of_work_least_witness :
    (∃ n, Verification.valid_proof exMerkleLen id exDiffTrue [] "" n = true)
      ∧ Verification.valid_proof exMerkleLen id exDiffTrue [] ""
          (Blockchain.proof_of_work exMerkleLen id exDiffTrue [] "" ⟨0, rfl⟩) = true :=
  ⟨⟨0, rfl⟩, (C2_proof_of_work_least exMerkleLen id exDiffTrue [] "" ⟨0, rfl⟩).1⟩

/-- C5: if any transaction of the open-pool snapshot fails the defensive
signature re-check, mine_block returns no block and the store is left
completely unchanged: no block, no reward row, no transaction marked mined. -/
theorem C5_mine_abort (hash_block : Block → String)
    (merkle : List Transaction → String) (hashS : String → String)
    (difficulty : String → Bool) (wallet_verify : Transaction → Bool)
    (pk : Option String) (now : Int) (late : List Transaction) (db : DB)
    (hpow : ∃ n, Verification.valid_proof merkle hashS difficulty (openTxs db)
        (hash_block (lastBlock db)) n = true)
    (hbad : ∃ tx ∈ openTxs db, wallet_verify tx = false) :
    Blockchain.mine_block hash_block merkle hashS difficulty wallet_verify
        pk now late db hpow = (none, db) := by
  obtain ⟨tx, htx, hwv⟩ := hbad
  have hall : (openTxs db).all wallet_verify = false := by
    rw [Bool.eq_false_iff]
    intro hAll
    rw [List.all_eq_true] at hAll
    have htrue := hAll tx htx
    rw [hwv] at htrue
    exact Bool.false_ne_true htrue
  cases pk with
  | none => rfl
  | some key => simp [Blockchain.mine_block, hall]

/-- C5 witness: the abort at a concrete store whose one pooled transaction
fails the re-check. -/
theorem C5_mine_abort_witness :
    (∃ tx ∈ openTxs exDb, (fun _ : Transaction => false) tx = false)
      ∧ Blockchain.mine_block exHB exMerkleLen id exDiffTrue (fun _ => false)
          (some "A") 0 [] exDb ⟨0, rfl⟩ = (none, exDb) :=
  ⟨⟨exTx1, by decide, rfl⟩,
   C5_mine_abort exHB exMerkleLen id exDiffTrue (fun _ => false) (some "A") 0 [] exDb
     ⟨0, rfl⟩ ⟨exTx1, by decide, rfl⟩⟩

/-- C6: if the proof-of-work check or the previous-hash comparison fails,
add_block returns False and leaves the store (chain, transaction rows, open
pool) completely unchanged. -/
theorem C6_add_block_reject (hash_block : Block → String)
    (merkle : List Transaction → String) (hashS : String → String)
    (difficulty : String → Bool) (db : DB) (block : Block)
    (txs : List Transaction)
    (h : Verification.valid_proof merkle hashS difficulty txs.dropLast
           block.previous_hash block.proof = false
         ∨ hash_block (lastBlock db) ≠ block.previous_hash) :
    Blockchain.add_block hash_block merkle hashS difficulty db block txs = (false, db) := by
  rcases h with h | h
  · simp [Blockchain.add_block, h]
  · have hm : (hash_block (lastBlock db) == block.previous_hash) = false :=
      beq_eq_false_iff_ne.mpr h
    simp [Blockchain.add_block, hm]

/-- C6 witness: rejection of a block whose previous_hash does not match the
local tip hash, leaving the concrete store unchanged. -/
theorem C6_add_block_reject_witness :
    exHB (lastBlock exDb) ≠ Block.previous_hash ⟨1, "X", "r", 0, 0⟩
      ∧ Blockchain.add_block exHB exMerkleLen id exDiffTrue exDb ⟨1, "X", "r", 0, 0⟩ []
          = (false, exDb) :=
  ⟨by decide,
   C6_add_block_reject exHB exMerkleLen id exDiffTrue exDb ⟨1, "X", "r", 0, 0⟩ []
     (Or.inr (by decide))⟩

/-- C7 amended: when add_transaction returns False because the transaction
failed verification, the candidate row has not been persisted and the store is
unchanged (the further False return, after a peer declined the broadcast,
happens with the row already committed; see the counterexample). -/
theorem C7_add_transaction_reject (vt : Transaction → Bool)
    (peer_responses : List (Option Nat)) (db : DB)
    (recipient sender signature : String) (amount timeArg : Int)
    (is_receiving : Bool)
    (hv : vt ⟨sender, recipient, signature, amount, false, none, timeArg⟩ = false) :
    Blockchain.add_transaction vt peer_responses db recipient sender signature
        amount timeArg is_receiving = (false, db) := by
  simp [Blockchain.add_transaction, hv]

/-- C7 witness: a verification failure at a concrete store leaves it unchanged. -/
theorem C7_add_transaction_reject_witness :
    (fun _ : Transaction => false) ⟨"A", "B", "sX", 5, false, none, 0⟩ = false
      ∧ Blockchain.add_transaction (fun _ => false) [] exDb "B" "A" "sX" 5 0 false
          = (false, exDb) :=
  ⟨rfl, C7_add_transaction_reject (fun _ => false) [] exDb "B" "A" "sX" 5 0 false rfl⟩

/-- C7 counterexample: with verification succeeding and one peer answering the
broadcast with status 400, add_transaction returns False although the
transaction has been committed, so the persisted state did change on a False
return. -/
theorem C7_add_transaction_cex :
    Blockchain.add_transaction (fun _ => true) [some 400] exDb "B" "A" "sX" 5 0 false
        = (false, ⟨exDb.blocks, exDb.txs ++ [⟨"A", "B", "sX", 5, false, none, 0⟩]⟩)
      ∧ (⟨exDb.blocks, exDb.txs ++ [⟨"A", "B", "sX", 5, false, none, 0⟩]⟩ : DB) ≠ exDb := by
  constructor
  · rfl
  · decide

/-- The search of proof_of_work is exactly the spec-worded search applied to
the merkle root of its transaction argument. -/
theorem proof_of_work_eq_pow_for_root (merkle : List Transaction → String)
    (hashS : String → String) (difficulty : String → Bool)
    (txs : List Transaction) (last_hash : String)
    (h : ∃ n, Verification.valid_proof merkle hashS difficulty txs last_hash n = true) :
    Blockchain.proof_of_work merkle hashS difficulty txs last_hash h
      = pow_for_root hashS difficulty (merkle txs) last_hash h := rfl

/-- C4 amended: a successful mine_block stores the merkle root of the open
pool snapshot with the reward appended last, but the stored proof is the one
found by the search over the snapshot WITHOUT the reward transaction (that is,
against the merkle root of the snapshot alone, not the stored root). -/
theorem C4_mine_block_commit (hash_block : Block → String)
    (merkle : List Transaction → String) (hashS : String → String)
    (difficulty : String → Bool) (wallet_verify : Transaction → Bool)
    (key : String) (now : Int) (late : List Transaction) (db : DB)
    (hpow : ∃ n, Verification.valid_proof merkle hashS difficulty (openTxs db)
        (hash_block (lastBlock db)) n = true)
    (hsig : (openTxs db).all wallet_verify = true) :
    (Blockchain.mine_block hash_block merkle hashS difficulty wallet_verify
        (some key) now late db hpow).1
      = some ⟨db.blocks.length, hash_block (lastBlock db),
              merkle (openTxs db ++ [reward_transaction key db.blocks.length now]),
              Blockchain.proof_of_work merkle hashS difficulty (openTxs db)
                (hash_block (lastBlock db)) hpow,
              now⟩ := by
  simp [Blockchain.mine_block, hsig]

/-- C4 witness: the amended statement evaluated at the concrete store. -/
theorem C4_mine_block_commit_witness :
    (openTxs exDb).all (fun _ => true) = true
      ∧ (Blockchain.mine_block exHB exMerkleLen id exDiffTrue (fun _ => true)
            (some "A") 0 [] exDb ⟨0, rfl⟩).1
          = some ⟨exDb.blocks.length, exHB (lastBlock exDb),
                  exMerkleLen (openTxs exDb ++ [reward_transaction "A" exDb.blocks.length 0]),
                  Blockchain.proof_of_work exMerkleLen id exDiffTrue (openTxs exDb)
                    (exHB (lastBlock exDb)) ⟨0, rfl⟩,
                  0⟩ :=
  ⟨by decide,
   C4_mine_block_commit exHB exMerkleLen id exDiffTrue (fun _ => true) "A" 0 [] exDb
     ⟨0, rfl⟩ (by decide)⟩

/-- Termination of the search under exDiff at the concrete store (the proof 0
is accepted over the root of the snapshot alone). -/
theorem C4hpow : ∃ n, Verification.valid_proof exMerkleLen id exDiff (openTxs exDb)
    (exHB (lastBlock exDb)) n = true := ⟨0, by decide⟩

/-- Termination of the spec-worded search under exDiff against the root stored
in the mined block (the proof 1 is accepted there). -/
theorem C4h2 : ∃ n : Nat, exDiff (id (exC4Block.hash_of_txs ++ exHB (lastBlock exDb)
    ++ toString n)) = true := ⟨1, by decide⟩

/-- C4 counterexample: at the concrete store the mined block stores the merkle
root of snapshot plus reward, yet its stored proof (0) is not the proof the
search against that stored root would return (1), because the source searches
over the pool before the reward is appended. -/
theorem C4_mine_block_cex :
    (Blockchain.mine_block exHB exMerkleLen id exDiff (fun _ => true)
        (some "A") 0 [] exDb C4hpow).1 = some exC4Block
      ∧ exC4Block.hash_of_txs = exMerkleLen (openTxs exDb ++ [reward_transaction "A" 1 0])
      ∧ exC4Block.proof ≠ pow_for_root id exDiff exC4Block.hash_of_txs
          (exHB (lastBlock exDb)) C4h2 := by
  have h0 : Blockchain.proof_of_work exMerkleLen id exDiff (openTxs exDb)
      (exHB (lastBlock exDb)) C4hpow = 0 :=
    least_such_eq _ C4hpow 0 (by decide) (fun k hk => absurd hk (Nat.not_lt_zero k))
  have h1 : pow_for_root id exDiff exC4Block.hash_of_txs (exHB (lastBlock exDb)) C4h2 = 1 :=
    least_such_eq _ C4h2 1 (by decide) (by decide)
  have hstep : (Blockchain.mine_block exHB exMerkleLen id exDiff (fun _ => true)
      (some "A") 0 [] exDb C4hpow).1
      = some ⟨1, "", "2", Blockchain.proof_of_work exMerkleLen id exDiff (openTxs exDb)
          (exHB (lastBlock exDb)) C4hpow, 0⟩ := rfl
  refine ⟨?_, by decide, ?_⟩
  · rw [hstep, h0]
    rfl
  · rw [h1]
    decide

/-- Termination of the search under the always-true difficulty at the concrete
store. -/
theorem exhpowTrue : ∃ n, Verification.valid_proof exMerkleLen id exDiffTrue
    (openTxs exDb) (exHB (lastBlock exDb)) n = true := ⟨0, rfl⟩

/-- C9 amended: the marking step of mine_block marks every row that is open in
the store when it runs, including a row committed by a concurrent admission
after the pool snapshot was taken: such a row is marked mined into this block
although the merkle root of the block does not commit it. -/
theorem C9_late_marked (hash_block : Block → String)
    (merkle : List Transaction → String) (hashS : String → String)
    (difficulty : String → Bool) (wallet_verify : Transaction → Bool)
    (key : String) (now : Int) (late : List Transaction) (db : DB)
    (hpow : ∃ n, Verification.valid_proof merkle hashS difficulty (openTxs db)
        (hash_block (lastBlock db)) n = true)
    (hsig : (openTxs db).all wallet_verify = true)
    (t : Transaction) (hmem : t ∈ late) (ht : t.mined = false) :
    { t with mined := true, block := some db.blocks.length }
      ∈ (Blockchain.mine_block hash_block merkle hashS difficulty wallet_verify
          (some key) now late db hpow).2.txs := by
  simp only [Blockchain.mine_block, hsig, if_true]
  have h1 : t ∈ db.txs ++ late ++ [reward_transaction key db.blocks.length now] := by
    simp [hmem]
  have h2 := List.mem_map_of_mem
    (fun t => if t.mined then t else { t with mined := true, block := some db.blocks.length }) h1
  simp only [ht, Bool.false_eq_true, if_false] at h2
  simpa [markMined] using h2

/-- C9 witness for the amended statement: a row committed after the snapshot at
the concrete store is marked into the new block. -/
theorem C9_late_marked_witness :
    ((openTxs exDb).all (fun _ => true) = true ∧ exLate ∈ [exLate] ∧ exLate.mined = false)
      ∧ { exLate with mined := true, block := some exDb.blocks.length }
          ∈ (Blockchain.mine_block exHB exMerkleLen id exDiffTrue (fun _ => true)
              (some "A") 0 [exLate] exDb exhpowTrue).2.txs :=
  ⟨⟨by decide, by decide, rfl⟩,
   C9_late_marked exHB exMerkleLen id exDiffTrue (fun _ => true) "A" 0 [exLate] exDb
     exhpowTrue (by decide) exLate (by decide) rfl⟩

/-- C9 counterexample: at the concrete store, the transaction exLate admitted
after the snapshot (it is not in the open pool the merkle root commits) does
not remain open: the resulting transaction table shows it marked mined into
block 1 together with the snapshot row and the reward. -/
theorem C9_mine_block_cex :
    (Blockchain.mine_block exHB exMerkleLen id exDiffTrue (fun _ => true)
        (some "A") 0 [exLate] exDb exhpowTrue).2.txs
        = [⟨"A", "B", "s1", 5, true, some 1, 0⟩,
           ⟨"C", "D", "s2", 3, true, some 1, 5⟩,
           ⟨"MINING", "A", "REWARD FOR MINING BLOCK 1", 10, true, some 1, 0⟩]
      ∧ exLate ∉ openTxs exDb ∧ exLate.mined = false := by
  refine ⟨rfl, by decide, rfl⟩

/-- Invariant of the peer scan fold of resolve: starting from an accumulator
that is either the untouched local chain (flag down) or a valid, strictly
longer chain (flag up), the fold preserves this shape, and the flag ends up
raised iff it started raised or some scanned chain is valid and strictly
longer than the local chain. -/
theorem resolveScan_fold_inv (valid : List Block → Bool) (localChain : List Block)
    (peers : List (List Block)) :
    ∀ acc : List Block × Bool,
      (acc.2 = false → acc.1 = localChain) →
      (acc.2 = true → valid acc.1 = true ∧ localChain.length < acc.1.length) →
      ((peers.foldl (resolveStep valid) acc).2 = false →
          (peers.foldl (resolveStep valid) acc).1 = localChain)
        ∧ ((peers.foldl (resolveStep valid) acc).2 = true →
            valid (peers.foldl (resolveStep valid) acc).1 = true
              ∧ localChain.length < (peers.foldl (resolveStep valid) acc).1.length)
        ∧ ((peers.foldl (resolveStep valid) acc).2 = true ↔
            acc.2 = true ∨ ∃ c ∈ peers, valid c = true ∧ localChain.length < c.length) := by
  induction peers with
  | nil =>
    intro acc h1 h2
    exact ⟨h1, h2, by simp⟩
  | cons c rest ih =>
    intro acc h1 h2
    have hacclen : localChain.length ≤ acc.1.length := by
      cases hb : acc.2 with
      | false => rw [h1 hb]
      | true => exact le_of_lt (h2 hb).2
    simp only [List.foldl_cons]
    by_cases hcond : (decide (acc.1.length < c.length) && valid c) = true
    · have hcond2 := hcond
      rw [Bool.and_eq_true] at hcond2
      have hv : valid c = true := hcond2.2
      have hlt : acc.1.length < c.length := of_decide_eq_true hcond2.1
      have hstep : resolveStep valid acc c = (c, true) := by
        simp only [resolveStep]
        rw [if_pos hcond]
      rw [hstep]
      have hres := ih (c, true) (fun hfa => absurd hfa (by simp))
        (fun _ => ⟨hv, lt_of_le_of_lt hacclen hlt⟩)
      refine ⟨hres.1, hres.2.1, ?_⟩
      rw [hres.2.2]
      constructor
      · intro _
        exact Or.inr ⟨c, List.mem_cons_self c rest, hv, lt_of_le_of_lt hacclen hlt⟩
      · intro _
        exact Or.inl rfl
    · have hstep : resolveStep valid acc c = acc := by
        simp only [resolveStep]
        rw [if_neg hcond]
      rw [hstep]
      have hres := ih acc h1 h2
      refine ⟨hres.1, hres.2.1, ?_⟩
      rw [hres.2.2]
      constructor
      · rintro (hflag | ⟨d, hd, hvd, hld⟩)
        · exact Or.inl hflag
        · exact Or.inr ⟨d, List.mem_cons_of_mem c hd, hvd, hld⟩
      · rintro (hflag | ⟨d, hd, hvd, hld⟩)
        · exact Or.inl hflag
        · rcases List.mem_cons.mp hd with rfl | hd2
          · cases hb : acc.2 with
            | true => exact Or.inl rfl
            | false =>
              exfalso
              apply hcond
              have hloc : acc.1 = localChain := h1 hb
              have hlen : acc.1.length < d.length := by
                rw [hloc]
                exact hld
              rw [Bool.and_eq_true]
              exact ⟨decide_eq_true hlen, hvd⟩
          · exact Or.inr ⟨d, hd2, hvd, hld⟩

/-- C3: the scan of resolve raises the replace flag iff some fetched peer
chain passes full proof-of-work and linkage validation and is strictly longer
than the current winner (so ties never replace); but whenever the flag is
raised, the replacement branch of the source queries the unmapped Blockchain
class (and passes a Python list to session.delete), which raises, so resolve
never returns True: at a concrete fully valid strictly longer peer chain the
scan selects the peer chain and resolve raises instead of replacing. -/
theorem C3_resolve_code_bug :
    (∀ (hb : Block → String) (vp : String → String → Nat → Bool)
        (localChain : List Block) (peers : List (List Block)),
        (resolveScan (Verification.verify_chain hb vp) localChain peers).2 = true
          ↔ ∃ c ∈ peers, Verification.verify_chain hb vp c = true
              ∧ localChain.length < c.length)
      ∧ resolveScan (Verification.verify_chain exHB2 (fun _ _ _ => true)) [exGenesis]
          [[exGenesis, exB1]] = ([exGenesis, exB1], true)
      ∧ Blockchain.resolve (Verification.verify_chain exHB2 (fun _ _ _ => true)) [exGenesis]
          [[exGenesis, exB1]] = Except.error "UnmappedClassError" := by
  refine ⟨?_, by decide, rfl⟩
  intro hb vp localChain peers
  have hinv := resolveScan_fold_inv (Verification.verify_chain hb vp) localChain peers
    (localChain, false) (fun _ => rfl) (fun hfa => absurd hfa (by simp))
  have hiff := hinv.2.2
  simpa [resolveScan] using hiff

/-- C8 amended: Wallet.verify_transaction returns a Bool verdict only when the
sender key and the signature are well-formed hexadecimal and the sender key
is importable; a malformed sender key or signature, or an unimportable sender
key, makes it raise (binascii.Error or ValueError) instead of returning a
False rejection. -/
theorem C8_verify_transaction_raises (importKey : List Nat → Option (List Nat))
    (rsaVerify : List Nat → String → List Nat → Bool) (transaction : Transaction)
    (h : unhexlify transaction.sender = none
       ∨ (∃ b, unhexlify transaction.sender = some b ∧ importKey b = none)
       ∨ unhexlify transaction.signature = none) :
    ∃ e, Wallet.verify_transaction importKey rsaVerify transaction = Except.error e := by
  rcases h with h | ⟨b, hb, hk⟩ | h
  · exact ⟨"binascii.Error", by simp [Wallet.verify_transaction, h]⟩
  · exact ⟨"ValueError", by simp [Wallet.verify_transaction, hb, hk]⟩
  · cases hs : unhexlify transaction.sender with
    | none => exact ⟨"binascii.Error", by simp [Wallet.verify_transaction, hs]⟩
    | some b =>
      cases hk : importKey b with
      | none => exact ⟨"ValueError", by simp [Wallet.verify_transaction, hs, hk]⟩
      | some k => exact ⟨"binascii.Error", by simp [Wallet.verify_transaction, hs, hk, h]⟩

/-- C8 witness: a transaction whose sender key is not hexadecimal makes the
verifier raise. -/
theorem C8_verify_transaction_raises_witness :
    (unhexlify (Transaction.sender ⟨"zz", "B", "aa", 1, false, none, 0⟩) = none)
      ∧ ∃ e, Wallet.verify_transaction (fun _ => some []) (fun _ _ _ => true)
          ⟨"zz", "B", "aa", 1, false, none, 0⟩ = Except.error e :=
  ⟨by decide,
   C8_verify_transaction_raises (fun _ => some []) (fun _ _ _ => true)
     ⟨"zz", "B", "aa", 1, false, none, 0⟩ (Or.inl (by decide))⟩

/-- C8 counterexample: on a transaction with a malformed (non-hexadecimal)
sender key, verification does not return the deterministic False rejection the
claim states: it raises binascii.Error (uncaught in the source). -/
theorem C8_verify_transaction_cex :
    Wallet.verify_transaction (fun _ => some []) (fun _ _ _ => true)
        ⟨"zz", "B", "aa", 1, false, none, 0⟩ = Except.error "binascii.Error"
      ∧ Wallet.verify_transaction (fun _ => some []) (fun _ _ _ => true)
          ⟨"zz", "B", "aa", 1, false, none, 0⟩ ≠ Except.ok false := by
  constructor
  · rfl
  · intro hcontra
    exact Except.noConfusion (hcontra.symm.trans (by rfl))
